import Mathlib

/-!
Shallow embedding of enact.py, a CSS-selector HTML templating engine
written in Python 2, used to verify its natural-language specification.

The pipeline (Enact.string and its helpers, enact.py lines 34-120) is
embedded over an abstract document type D together with a Runtime record
packaging the external collaborators (HTML parser and serializer,
CSS-to-XPath translation, XPath selection) and the ambient Python 2
behavior the code relies on (str(), dict.items() iteration order).

The action library (Actions.*, enact.py lines 123-244) is embedded over a
concrete HTML node type; the genshi Transformer primitives it delegates to
are external library code, modelled from the specification of their
effects (spec section 4.6).
-/

/-- Python exceptions the embedded code can raise. enact models
EnactException and transform models TransformException (enact.py lines
11-12); typeError, attributeError and user model plain Python errors
arising outside the library (TypeError, AttributeError, and any exception
raised by a user transform function). -/
inductive PErr where
  | enact (msg : String)
  | transform (msg : String)
  | typeError (msg : String)
  | attributeError (msg : String)
  | user (msg : String)
deriving DecidableEq

/-- Python values that flow through Enact.ensureHTML (enact.py lines
102-120): a parsed genshi document or stream, a string, a list, or any
other object (carrying its str() rendering). -/
inductive PyVal (D : Type) where
  | stream (d : D)
  | pystr (s : String)
  | pylist (xs : List (PyVal D))
  | other (r : String)

/-- Model of Python zip(l[0::2], l[1::2]) (enact.py lines 53 and 59): it
pairs consecutive elements and silently drops a trailing unpaired one. -/
def zipPairs {α : Type} : List α → List (α × α)
  | [] => []
  | [_] => []
  | a :: b :: rest => (a, b) :: zipPairs rest

/-- Model of the assignment d[k] = v on a Python dict represented as an
association list with unique keys: an existing key keeps its position and
gets the new value, a new key is appended.  The key set and final values
match the Python dict exactly; the iteration order of dict.items() is
hash-dependent in Python 2 and modelled separately (Runtime.ditems). -/
def dictInsert {α : Type} (rd : List (String × α)) (k : String) (v : α) : List (String × α) :=
  if rd.any (fun p => p.1 = k) then rd.map (fun p => if p.1 = k then (k, v) else p)
  else rd ++ [(k, v)]

/-- Fuel-indexed worker for pyReplace; each step consumes at least one
character, so fuel equal to the length of the text suffices. -/
def pyReplaceGo (pat repl : List Char) : Nat → List Char → List Char
  | _, [] => []
  | 0, rest => rest
  | fuel + 1, c :: rest =>
    if pat.isPrefixOf (c :: rest) then
      repl ++ pyReplaceGo pat repl fuel (List.drop (pat.length - 1) rest)
    else
      c :: pyReplaceGo pat repl fuel rest

/-- Model of Python str.replace(pat, repl): replaces every non-overlapping
occurrence of pat scanning left to right; an empty pattern inserts repl
before every character and at the end, as Python does. -/
def pyReplace (s pat repl : String) : String :=
  if pat.data = [] then ⟨repl.data ++ s.data.flatMap (fun c => c :: repl.data)⟩
  else ⟨pyReplaceGo pat.data repl.data s.data.length s.data⟩

/-- Order used by the reconciliation sort (enact.py line 65): compare
replacement pairs by the length of the original-serialization key, larger
first.  Python sorted(key=len, reverse=True) is a stable descending sort;
List.insertionSort with this total preorder realizes one. -/
def lenGE (p q : String × String) : Prop := q.1.length ≤ p.1.length

instance : DecidableRel lenGE := fun p q => Nat.decLe q.1.length p.1.length

instance : IsTotal (String × String) lenGE :=
  ⟨fun p q => Nat.le_total q.1.length p.1.length⟩

instance : IsTrans (String × String) lenGE :=
  ⟨fun _ _ _ h1 h2 => Nat.le_trans h2 h1⟩

/-- Model of sorted(replace_dict.items(), key=len of original,
reverse=True) at enact.py line 65. -/
def sortByLenDesc (l : List (String × String)) : List (String × String) :=
  List.insertionSort lenGE l

/-- External collaborators of the pipeline and ambient Python runtime
behavior over an abstract document type D.  parse models genshi
HTML(text, encoding=utf-8); recast models HTML(stream, ...) re-parsing an
existing stream; select models document.select(xpath); cssToXpath models
cssselect HTMLTranslator().css_to_xpath; renderSel models
selection.render(html), and renderDoc models document.render(html,
doctype=...) where none models doctype=None; strVal models Python str();
ditems models dict.items() on a dict built by dictInsert: Python 2 dict
iteration order is hash-dependent and unspecified, so it is abstract here,
constrained only to enumerate the entries (ditems_perm). -/
structure Runtime (D : Type) where
  parse : String → D
  recast : D → D
  select : D → String → D
  cssToXpath : String → String
  renderSel : D → String
  renderDoc : D → Option String → String
  strVal : PyVal D → String
  ditems : List (String × String) → List (String × String)
  ditems_perm : ∀ l : List (String × String), List.Perm (ditems l) l

/-- A user transform function of an action chain: its Python name together
with its behavior; it receives the current selection document and its
argument and may return any Python value or raise any error. -/
structure TransFn (D : Type) where
  name : String
  run : D → PyVal D → Except PErr (PyVal D)

/-- An entry of a flat action chain list: in the (fn, arg) convention even
positions hold functions and odd positions hold argument values. -/
inductive AVal (D : Type) where
  | fn (f : TransFn D)
  | dat (v : PyVal D)

/-- An entry of the flat varargs transform list of Enact.string: even
positions hold CSS selector strings, odd positions hold action lists. -/
inductive TVal (D : Type) where
  | sel (css : String)
  | acts (al : List (AVal D))

/-- The Python value a chain entry denotes when passed as data to a
transform function (a function object is opaque to the callee). -/
def avalToPy {D : Type} : AVal D → PyVal D
  | .dat v => v
  | .fn f => .other ("<function " ++ f.name ++ ">")

/-- Embedding of Enact.ensureHTML (enact.py lines 102-120): dispatch on
the runtime type of obj.  A Stream is returned unchanged unless
recast_stream is set, in which case it is re-parsed; a string is parsed as
UTF-8 HTML; a list is stringified element-wise, joined with single spaces
and parsed; anything else raises EnactException naming the value. -/
def Enact.ensureHTML {D : Type} (L : Runtime D) (obj : PyVal D) (recast_stream : Bool) : Except PErr D :=
  match obj with
  | .stream d => if recast_stream then .ok (L.recast d) else .ok d
  | .pystr s => .ok (L.parse s)
  | .pylist xs => .ok (L.parse (String.intercalate " " (xs.map L.strVal)))
  | .other r => .error (.enact ("Could not correctly coerce into HTML obj - " ++ r))

/-- Embedding of Enact.cssToXpath (enact.py lines 68-72); the optional
translator argument is a performance cache with no observable effect. -/
def Enact.cssToXpath {D : Type} (L : Runtime D) (css : String) : String :=
  L.cssToXpath css

/-- Embedding of Enact.cssSelection (enact.py lines 74-81): normalize the
document, translate the selector and re-parse the selected stream as a
standalone document. -/
def Enact.cssSelection {D : Type} (L : Runtime D) (css : String) (doc : D) : Except PErr D := do
  let hd ← Enact.ensureHTML L (.stream doc) false
  Enact.ensureHTML L (.stream (L.select hd (Enact.cssToXpath L css))) true

/-- Embedding of Enact.applyTransform (enact.py lines 83-100).  The call
of the user function is outside the try block, so an error it raises
propagates unchanged; only a failure of ensureHTML on its result is caught
and replaced by a TransformException naming the function (the original
error is discarded, as the bare except in the source does). -/
def Enact.applyTransform {D : Type} (L : Runtime D) (trans_selection : D) (action_pair : AVal D × AVal D) : Except PErr D :=
  match action_pair.1 with
  | .dat _ => .error (.typeError "object is not callable")
  | .fn f =>
    match f.run trans_selection (avalToPy action_pair.2) with
    | .error e => .error e
    | .ok transformed =>
      match Enact.ensureHTML L transformed true with
      | .ok d => .ok d
      | .error _ => .error (.transform ("Your transformation function MUST return a string or a selection obj (HTML obj) - " ++ f.name))

/-- The reduce of applyTransform over the zipped action pairs of one
request (enact.py lines 59-60). -/
def Enact.runChain {D : Type} (L : Runtime D) (sel : D) (action_list : List (AVal D)) : Except PErr D :=
  (zipPairs action_list).foldlM (Enact.applyTransform L) sel

/-- Reading a varargs entry in selector position: Python would hand a
non-string entry to css_to_xpath, which raises a TypeError. -/
def asSelector {D : Type} : TVal D → Except PErr String
  | .sel css => .ok css
  | .acts _ => .error (.typeError "selector must be a string")

/-- Reading a varargs entry in action-list position.  In Python a string
here would be sliced character-wise and fail on the first pseudo-action;
that degenerate case is modelled as an immediate TypeError. -/
def asActionList {D : Type} : TVal D → Except PErr (List (AVal D))
  | .acts al => .ok al
  | .sel _ => .error (.typeError "action list must be a list")

/-- The (original-serialization, transformed-serialization) pair one
request contributes, computed from the original parsed document htmldoc
only (enact.py lines 57-61). -/
def Enact.pairFor {D : Type} (L : Runtime D) (htmldoc : D) (p : TVal D × TVal D) : Except PErr (String × String) := do
  let css ← asSelector p.1
  let action_list ← asActionList p.2
  let selection ← Enact.cssSelection L css htmldoc
  let transformed ← Enact.runChain L selection action_list
  pure (L.renderSel selection, L.renderSel transformed)

/-- One iteration of the loop at enact.py lines 57-61: compute the pair of
a request and record it in replace_dict. -/
def Enact.recordTransform {D : Type} (L : Runtime D) (htmldoc : D) (rd : List (String × String)) (p : TVal D × TVal D) : Except PErr (List (String × String)) := do
  let kv ← Enact.pairFor L htmldoc p
  pure (dictInsert rd kv.1 kv.2)

/-- The loop of enact.py lines 55-61 building replace_dict. -/
def Enact.buildReplaceDict {D : Type} (L : Runtime D) (htmldoc : D) (transforms : List (TVal D × TVal D)) : Except PErr (List (String × String)) :=
  transforms.foldlM (Enact.recordTransform L htmldoc) []

/-- The Python message of the odd-request-list EnactException at enact.py
line 48 (the suffix str(transform_list) the source appends is elided). -/
def oddRequestMsg : String := "Every transform selection needs exactly one arg."

/-- Embedding of Enact.string (enact.py lines 34-66).  dt models the
doctype processing option, which Python defaults to html5 when the caller
passes no override. -/
def Enact.string {D : Type} (L : Runtime D) (document_str : String) (transform_list : List (TVal D)) (dt : Option String) : Except PErr String :=
  if document_str = "" then .ok document_str
  else if transform_list.length % 2 = 1 then .error (.enact oddRequestMsg)
  else do
    let htmldoc ← Enact.ensureHTML L (.pystr document_str) false
    let rd ← Enact.buildReplaceDict L htmldoc (zipPairs transform_list)
    pure ((sortByLenDesc (L.ditems rd)).foldl (fun result p => pyReplace result p.1 p.2) (L.renderDoc htmldoc dt))

/-- Reconciliation as the spec words it (section 4.5 steps 4-5): sort the
recorded pairs by descending length of the original key with a stable sort
and fold plain substring replacement over the base text. -/
def reconcileSpec (baseText : String) (pairs : List (String × String)) : String :=
  (sortByLenDesc pairs).foldl (fun result p => pyReplace result p.1 p.2) baseText

/-- HTML tree node for the action-library model: an element with tag,
attributes (ordered key-value pairs) and children, or a text node. -/
inductive HNode where
  | elem (tag : String) (attrs : List (String × String)) (children : List HNode)
  | text (s : String)

/-- Argument of a content-like action: a raw string or parsed markup. -/
inductive CArg where
  | cstr (s : String)
  | cdoc (ns : List HNode)

/-- Modelled from the spec: the genshi attribute-update primitive that
Actions.transformer.attr(name, value) applies to a matched element (spec
section 4.6: sets or overwrites the named attribute; a null value removes
it).  A present attribute keeps its position and receives the new value,
an absent one is appended at the end, a null value deletes the entries of
the name. -/
def updateAttr : List (String × String) → String → Option String → List (String × String)
  | [], k, some w => [(k, w)]
  | [], _, none => []
  | p :: a, k, some w => if p.1 = k then (k, w) :: a else p :: updateAttr a k (some w)
  | p :: a, k, none => if p.1 = k then updateAttr a k none else p :: updateAttr a k none

/-- Modelled from the spec: one transformer.attr(k, v).end() pass over a
selection, updating the attribute on every matched element (the roots of
the selection document); text nodes are unaffected. -/
def trAttr (k : String) (v : Option String) (sel : List HNode) : List HNode :=
  sel.map (fun n => match n with
    | .text s => .text s
    | .elem t a ch => .elem t (updateAttr a k v) ch)

/-- Embedding of Actions.setAttrs (enact.py lines 136-139): a fold of the
attr transformer over the entries of attr_dict (a Python dict, so its keys
are unique; the entry order is the dict iteration order). -/
def Actions.setAttrs (selection : List HNode) (attr_dict : List (String × Option String)) : List HNode :=
  attr_dict.foldl (fun old kv => trAttr kv.1 kv.2 old) selection

/-- Building the Python dict dict(zip(attr_list, repeat(None))) of
enact.py line 145. -/
def pyDictOfPairs (l : List (String × Option String)) : List (String × Option String) :=
  l.foldl (fun d p => dictInsert d p.1 p.2) []

/-- The argument accepted by Actions.removeAttrs: one attribute name or a
list of names. -/
inductive StrOrList where
  | str (s : String)
  | list (l : List String)

/-- The name list an Actions.removeAttrs argument denotes (enact.py lines
143-144 wrap a single string in a list). -/
def namesOf : StrOrList → List String
  | .str s => [s]
  | .list l => l

/-- Embedding of Actions.removeAttrs (enact.py lines 141-145): wrap a
single name, then call setAttrs with a dict mapping each name to None. -/
def Actions.removeAttrs (selection : List HNode) (attr_list : StrOrList) : List HNode :=
  Actions.setAttrs selection
    (pyDictOfPairs ((namesOf attr_list).map (fun n => (n, (none : Option String)))))

/-- The children a content argument denotes once placed into an emptied
element: a raw string becomes one text node, parsed markup its nodes. -/
def contentChildren : CArg → List HNode
  | .cstr s => [.text s]
  | .cdoc ns => ns

/-- Embedding of Actions.content (enact.py lines 167-169): the pipe
through transformer.empty().prepend(content).end() replaces the children
of every matched element with the given content; modelled from the spec
(section 4.6) on the matched elements, the roots of the selection. -/
def Actions.content (selection : List HNode) (c : CArg) : List HNode :=
  selection.map (fun n => match n with
    | .text s => .text s
    | .elem t a _ => .elem t a (contentChildren c))

/-- The ensureHTML coercion as it acts on a content-like argument in the
action model: a raw string is parsed into markup (enact.py line 173). -/
def ensureHNodes (parse : String → List HNode) : CArg → CArg
  | .cstr s => .cdoc (parse s)
  | .cdoc ns => .cdoc ns

/-- Embedding of Actions.htmlContent (enact.py lines 171-173). -/
def Actions.htmlContent (parse : String → List HNode) (selection : List HNode) (c : CArg) : List HNode :=
  Actions.content selection (ensureHNodes parse c)

/-- Embedding of Actions.append (enact.py lines 186-188): the pipe through
transformer.append(content).end() inserts the content at the end of the
children of every matched element; modelled from the spec (section 4.6). -/
def Actions.append (selection : List HNode) (c : CArg) : List HNode :=
  selection.map (fun n => match n with
    | .text s => .text s
    | .elem t a ch => .elem t a (ch ++ contentChildren c))

/-- Embedding of Actions.prepend (enact.py lines 194-196). -/
def Actions.prepend (selection : List HNode) (c : CArg) : List HNode :=
  selection.map (fun n => match n with
    | .text s => .text s
    | .elem t a ch => .elem t a (contentChildren c ++ ch))

/-- The attribute surface of genshi.core.Stream, the value a completed
transformer pipe returns: it exposes filter, render, select and serialize,
and in particular no end method. -/
def streamAttrs : List String := ["filter", "render", "select", "serialize"]

/-- Python attribute lookup of .end() on a Stream value: genshi Streams
have no end attribute, so the call raises AttributeError; only Transformer
objects define end. -/
def streamCallEnd (ns : List HNode) : Except PErr (List HNode) :=
  if "end" ∈ streamAttrs then .ok ns
  else .error (.attributeError "Stream object has no attribute end")

/-- Embedding of Actions.appendHtml (enact.py lines 190-192): the source
calls .end() a second time, on the Stream that Actions.append (which
already closed its transformer chain with .end()) returned. -/
def Actions.appendHtml (parse : String → List HNode) (selection : List HNode) (c : CArg) : Except PErr (List HNode) :=
  streamCallEnd (Actions.append selection (ensureHNodes parse c))

/-- Embedding of Actions.prependHtml (enact.py lines 198-200), with the
same extra .end() call on a Stream. -/
def Actions.prependHtml (parse : String → List HNode) (selection : List HNode) (c : CArg) : Except PErr (List HNode) :=
  streamCallEnd (Actions.prepend selection (ensureHNodes parse c))

/-- The removeAttrs behavior in the words of the spec (section 4.6 table):
setAttrs applied with a mapping from each named attribute to a null
value. -/
def removeAttrsSpec (selection : List HNode) (names : List String) : List HNode :=
  Actions.setAttrs selection (names.map (fun n => (n, (none : Option String))))

/-- A concrete toy instantiation of the external collaborators with
documents represented by their serialization: select is given by a finite
table, while parsing, recasting and selection rendering are the identity
and document rendering prepends the doctype declaration. -/
def toyRT (selectFn : String → String → String) (dits : List (String × String) → List (String × String)) (hperm : ∀ l, List.Perm (dits l) l) : Runtime String :=
  ⟨fun s => s, fun d => d, selectFn, fun c => c, fun d => d,
   fun d dt => match dt with
     | none => d
     | some t => "<!DOCTYPE " ++ t ++ ">\n" ++ d,
   fun v => match v with
     | .pystr s => s
     | .stream d => d
     | .other r => r
     | .pylist _ => "[]",
   dits, hperm⟩

/-- Select table for the toy document <i>x</i><b>y</b>: the selector i
matches its i element and b matches its b element; the two matched nodes
are disjoint (non-overlapping subtrees). -/
def selIB (d : String) (xp : String) : String :=
  if xp = "i" then "<i>x</i>" else if xp = "b" then "<b>y</b>" else d

/-- Toy runtime whose dict iteration order is insertion order. -/
def rtId : Runtime String := toyRT selIB (fun l => l) (fun l => List.Perm.refl l)

/-- Toy runtime whose dict iteration order is the reverse of insertion
order; Python 2 promises neither (see Runtime.ditems). -/
def rtRev : Runtime String := toyRT selIB (fun l => l.reverse) (fun l => List.reverse_perm l)

/-- A transform function returning the fixed markup string out. -/
def fnConst (out : String) : TransFn String :=
  ⟨"const", fun _ _ => .ok (.pystr out)⟩

/-- A transform function that raises; its error surfacing in a result
witnesses that the function was actually invoked. -/
def fnBoom : TransFn String :=
  ⟨"boom", fun _ _ => .error (.user "chain action executed")⟩

/-- Request list rewriting the i element to markup equal to the original
serialization of the b element, and the b element to fresh markup. -/
def tlIB : List (TVal String) :=
  [.sel "i", .acts [.fn (fnConst "<b>y</b>"), .dat (.pystr "")],
   .sel "b", .acts [.fn (fnConst "<b>Z</b>"), .dat (.pystr "")]]

/-- The request list tlIB with its two requests swapped. -/
def tlBI : List (TVal String) :=
  [.sel "b", .acts [.fn (fnConst "<b>Z</b>"), .dat (.pystr "")],
   .sel "i", .acts [.fn (fnConst "<b>y</b>"), .dat (.pystr "")]]

/-- A transform function returning a value that ensureHTML cannot coerce. -/
def fnOther : TransFn String :=
  ⟨"other", fun _ _ => .ok (.other "x")⟩

/-- Whether a result is a raised TransformException. -/
def isTransformExc {α : Type} : Except PErr α → Bool
  | .error (.transform _) => true
  | _ => false

/-- The longest even-length prefix of a list: the part of an action chain
that the zip of enact.py line 59 retains. -/
def evenTake {α : Type} (l : List α) : List α := l.take (2 * (l.length / 2))

/-- Truncating a varargs entry: an action chain is cut to its longest
even-length prefix, a selector is untouched. -/
def truncTVal {D : Type} : TVal D → TVal D
  | .sel css => .sel css
  | .acts al => .acts (evenTake al)

/-- Truncating every action chain of a transform list. -/
def evenTakeChains {D : Type} (tl : List (TVal D)) : List (TVal D) := tl.map truncTVal

/-- The value of the first attribute entry of a given name, if any. -/
def firstAttr : List (String × String) → String → Option String
  | [], _ => none
  | p :: a, k => if p.1 = k then some p.2 else firstAttr a k

/-- The fold of updateAttr over a list of attribute updates, as one
setAttrs pass performs on the attribute list of a matched element. -/
def foldUpd (d : List (String × Option String)) (a : List (String × String)) : List (String × String) :=
  d.foldl (fun a kv => updateAttr a kv.1 kv.2) a

/-- The per-node effect of one setAttrs pass with updates d. -/
def nodeUpd (d : List (String × Option String)) : HNode → HNode
  | .text s => .text s
  | .elem t a ch => .elem t (foldUpd d a) ch

/-- The per-request pairs of a transform list, each computed by
Enact.pairFor from the original parsed document alone (the form in which
the spec describes step 3 of reconciliation). -/
def mapPairs {D : Type} (L : Runtime D) (htmldoc : D) : List (TVal D × TVal D) → Except PErr (List (String × String))
  | [] => .ok []
  | p :: tps => do
    let kv ← Enact.pairFor L htmldoc p
    let kvs ← mapPairs L htmldoc tps
    pure (kv :: kvs)

/-! Helper lemmas shared by the claim theorems. -/

@[simp] theorem except_ok_bind {ε α β : Type} (a : α) (f : α → Except ε β) :
    (Except.ok a : Except ε α) >>= f = f a := rfl

@[simp] theorem except_error_bind {ε α β : Type} (e : ε) (f : α → Except ε β) :
    (Except.error e : Except ε α) >>= f = Except.error e := rfl

theorem evenTake_cons_cons {α : Type} (a b : α) (rest : List α) :
    evenTake (a :: b :: rest) = a :: b :: evenTake rest := by
  show (a :: b :: rest).take (2 * ((rest.length + 1 + 1) / 2)) =
    a :: b :: rest.take (2 * (rest.length / 2))
  rw [Nat.add_assoc, Nat.add_div_right rest.length (by decide), Nat.mul_succ]
  rfl

theorem zipPairs_evenTake {α : Type} : ∀ l : List α, zipPairs (evenTake l) = zipPairs l
  | [] => by simp [evenTake, zipPairs]
  | [a] => by simp [evenTake, zipPairs]
  | a :: b :: rest => by
    rw [evenTake_cons_cons]
    show (a, b) :: zipPairs (evenTake rest) = (a, b) :: zipPairs rest
    rw [zipPairs_evenTake rest]

theorem zipPairs_map {α β : Type} (f : α → β) :
    ∀ l : List α, zipPairs (l.map f) = (zipPairs l).map (fun p => (f p.1, f p.2))
  | [] => rfl
  | [_] => rfl
  | a :: b :: rest => by
    show (f a, f b) :: zipPairs (rest.map f) = (f a, f b) :: (zipPairs rest).map _
    rw [zipPairs_map f rest]

theorem recordTransform_trunc {D : Type} (L : Runtime D) (hd : D)
    (rd : List (String × String)) (p : TVal D × TVal D) :
    Enact.recordTransform L hd rd (truncTVal p.1, truncTVal p.2) =
      Enact.recordTransform L hd rd p := by
  obtain ⟨x, y⟩ := p
  cases x <;> cases y <;>
    simp [Enact.recordTransform, Enact.pairFor, truncTVal, asSelector, asActionList,
      Enact.runChain, zipPairs_evenTake]

theorem foldlM_recordTransform_trunc {D : Type} (L : Runtime D) (hd : D) :
    ∀ (tps : List (TVal D × TVal D)) (rd : List (String × String)),
    (tps.map (fun p => (truncTVal p.1, truncTVal p.2))).foldlM (Enact.recordTransform L hd) rd =
      tps.foldlM (Enact.recordTransform L hd) rd
  | [], _ => rfl
  | p :: tps, rd => by
    rw [List.map_cons, List.foldlM_cons, List.foldlM_cons, recordTransform_trunc]
    cases h : Enact.recordTransform L hd rd p with
    | error e => rfl
    | ok rd2 => simpa using foldlM_recordTransform_trunc L hd tps rd2

theorem foldlM_record_eq_mapPairs {D : Type} (L : Runtime D) (htmldoc : D) :
    ∀ (tps : List (TVal D × TVal D)) (rd : List (String × String)),
    tps.foldlM (Enact.recordTransform L htmldoc) rd =
      Except.map (fun kvs => kvs.foldl (fun acc kv => dictInsert acc kv.1 kv.2) rd)
        (mapPairs L htmldoc tps)
  | [], _ => rfl
  | p :: tps, rd => by
    rw [List.foldlM_cons]
    cases h : Enact.pairFor L htmldoc p with
    | error e => simp [Enact.recordTransform, mapPairs, h, Except.map]
    | ok kv =>
      have ih := foldlM_record_eq_mapPairs L htmldoc tps (dictInsert rd kv.1 kv.2)
      cases hm : mapPairs L htmldoc tps with
      | error e =>
        rw [hm] at ih
        simp [Enact.recordTransform, mapPairs, h, hm, Except.map] at ih ⊢
        exact ih
      | ok kvs =>
        rw [hm] at ih
        simp [Enact.recordTransform, mapPairs, h, hm, Except.map] at ih ⊢
        exact ih

/-! Claim theorems. -/

/-- Claim C10: for every transform list, even a malformed odd-length one,
an empty document string is returned unchanged by Enact.string, with no
parsing attempted (the result is independent of every runtime operation)
and no error raised: the empty-input short-circuit precedes request
validation. -/
theorem empty_document_short_circuit {D : Type} (L : Runtime D)
    (transform_list : List (TVal D)) (dt : Option String) :
    Enact.string L "" transform_list dt = .ok "" := rfl

/-- Claim C6: with an empty request list, Enact.string returns exactly the
canonical serialization of the parsed document under the requested doctype
option: no substitution is applied. -/
theorem empty_requests_identity {D : Type} (L : Runtime D) (s : String)
    (dt : Option String) (hs : s ≠ "") :
    Enact.string L s [] dt = .ok (L.renderDoc (L.parse s) dt) := by
  have hd0 : L.ditems [] = [] := (L.ditems_perm []).eq_nil
  simp [Enact.string, hs, Enact.buildReplaceDict, Enact.ensureHTML, zipPairs, hd0,
    sortByLenDesc, List.insertionSort]

/-- Claim C6 witness: the identity at a concrete document and runtime. -/
theorem empty_requests_identity_instance :
    Enact.string rtId "<p>a</p>" [] (some "html5") = .ok "<!DOCTYPE html5>\n<p>a</p>" :=
  empty_requests_identity rtId "<p>a</p>" (some "html5") (by decide)

/-- Claim C5: Enact.ensureHTML returns a Document unchanged when it is
already a parsed Stream and no reparse is forced; coerces a list by
stringifying each item, joining on a single space and parsing the result
as HTML; and fails with the coercion EnactException reporting the
offending value on an input of any other kind. -/
theorem ensureHTML_cases {D : Type} (L : Runtime D) (d : D) (xs : List (PyVal D))
    (r : String) (b1 b2 : Bool) :
    Enact.ensureHTML L (.stream d) false = .ok d ∧
    Enact.ensureHTML L (.pylist xs) b1 =
      .ok (L.parse (String.intercalate " " (xs.map L.strVal))) ∧
    Enact.ensureHTML L (.other r) b2 =
      .error (.enact ("Could not correctly coerce into HTML obj - " ++ r)) :=
  ⟨rfl, rfl, rfl⟩

/-- Claim C9 (code bug): every call of Actions.appendHtml or
Actions.prependHtml raises AttributeError, because the source invokes
.end() on the Stream already returned by the closed transformer pipe of
Actions.append or Actions.prepend; the markup is never delivered. -/
theorem appendHtml_prependHtml_raise (parse : String → List HNode)
    (selection : List HNode) (c : CArg) :
    Actions.appendHtml parse selection c =
      .error (.attributeError "Stream object has no attribute end") ∧
    Actions.prependHtml parse selection c =
      .error (.attributeError "Stream object has no attribute end") :=
  ⟨rfl, rfl⟩

/-- Claim C2 (amended): a request list of odd length makes Enact.string
fail with the EnactException of enact.py line 48 before any parsing or
transform work — the outcome is the same for every runtime behavior; but
an action chain of odd length raises nothing: Enact.string behaves exactly
as if every chain were truncated to its longest even-length prefix, the
trailing unpaired entry being silently dropped by zip. -/
theorem odd_request_fails_fast_and_odd_chain_truncated {D : Type} (L : Runtime D)
    (s : String) (tl tl2 : List (TVal D)) (dt : Option String)
    (hs : s ≠ "") (hodd : tl.length % 2 = 1) :
    Enact.string L s tl dt = .error (.enact oddRequestMsg) ∧
    Enact.string L s tl2 dt = Enact.string L s (evenTakeChains tl2) dt := by
  constructor
  · simp [Enact.string, hs, hodd]
  · have hz : zipPairs (tl2.map truncTVal) =
        (zipPairs tl2).map (fun p => (truncTVal p.1, truncTVal p.2)) :=
      zipPairs_map truncTVal tl2
    have hb : Enact.buildReplaceDict L (L.parse s) (zipPairs (tl2.map truncTVal)) =
        Enact.buildReplaceDict L (L.parse s) (zipPairs tl2) := by
      rw [hz]
      exact foldlM_recordTransform_trunc L (L.parse s) (zipPairs tl2) []
    simp [Enact.string, hs, evenTakeChains, Enact.ensureHTML, hb]

/-- Claim C2 witness: the instantiated behavior at concrete inputs. -/
theorem odd_request_fails_fast_and_odd_chain_truncated_instance :
    Enact.string rtId "<i>x</i>" [.sel "i"] none = .error (.enact oddRequestMsg) ∧
    Enact.string rtId "<i>x</i>" [.sel "i", .acts [.fn fnBoom]] none =
      Enact.string rtId "<i>x</i>" (evenTakeChains [.sel "i", .acts [.fn fnBoom]]) none :=
  odd_request_fails_fast_and_odd_chain_truncated rtId "<i>x</i>" [.sel "i"]
    [.sel "i", .acts [.fn fnBoom]] none (by decide) (by decide)

/-- Claim C2 counterexample: a request whose action chain has odd length
does not fail with any error: the call returns normally, and the chain
action never runs (fnBoom would raise if invoked, yet the call succeeds),
contradicting the claimed MalformedRequestError for odd chains. -/
theorem odd_chain_does_not_fail :
    Enact.string rtId "<i>x</i>" [.sel "i", .acts [.fn fnBoom]] none = .ok "<i>x</i>" := rfl

/-- Claim C4 (amended): in Enact.applyTransform an error raised by the
transform function itself propagates unchanged and is not wrapped; only
when the function returns a value that ensureHTML cannot coerce does the
chain fail with the TransformException naming the failing function (the
original coercion error is dropped, not wrapped); a coercible result is
threaded through. -/
theorem applyTransform_error_behavior {D : Type} (L : Runtime D) (acc : D)
    (f : TransFn D) (a : AVal D) :
    (∀ e, f.run acc (avalToPy a) = .error e →
      Enact.applyTransform L acc (.fn f, a) = .error e) ∧
    (∀ v e, f.run acc (avalToPy a) = .ok v → Enact.ensureHTML L v true = .error e →
      Enact.applyTransform L acc (.fn f, a) =
        .error (.transform ("Your transformation function MUST return a string or a selection obj (HTML obj) - " ++ f.name))) ∧
    (∀ v d, f.run acc (avalToPy a) = .ok v → Enact.ensureHTML L v true = .ok d →
      Enact.applyTransform L acc (.fn f, a) = .ok d) := by
  refine ⟨fun e he => ?_, fun v e hv he => ?_, fun v d hv hd => ?_⟩
  · simp [Enact.applyTransform, he]
  · simp [Enact.applyTransform, hv, he]
  · simp [Enact.applyTransform, hv, hd]

/-- Claim C4 witness: the three behaviors at concrete functions. -/
theorem applyTransform_error_behavior_instance :
    Enact.applyTransform rtId "<i>x</i>" (.fn fnBoom, .dat (.pystr "")) =
      .error (.user "chain action executed") ∧
    Enact.applyTransform rtId "<i>x</i>" (.fn fnOther, .dat (.pystr "")) =
      .error (.transform ("Your transformation function MUST return a string or a selection obj (HTML obj) - other")) ∧
    Enact.applyTransform rtId "<i>x</i>" (.fn (fnConst "<p>q</p>"), .dat (.pystr "")) =
      .ok "<p>q</p>" :=
  ⟨(applyTransform_error_behavior rtId "<i>x</i>" fnBoom (.dat (.pystr ""))).1 _ rfl,
   (applyTransform_error_behavior rtId "<i>x</i>" fnOther (.dat (.pystr ""))).2.1
     (.other "x") (.enact "Could not correctly coerce into HTML obj - x") rfl rfl,
   (applyTransform_error_behavior rtId "<i>x</i>" (fnConst "<p>q</p>") (.dat (.pystr ""))).2.2
     (.pystr "<p>q</p>") "<p>q</p>" rfl rfl⟩

/-- Claim C4 counterexample: at a concrete transform function that raises,
applyTransform surfaces the raw user error; no TransformException
identifying the function or wrapping the error is produced. -/
theorem fn_error_not_wrapped :
    Enact.applyTransform rtId "<i>x</i><b>y</b>" (.fn fnBoom, .dat (.pystr "")) =
      .error (.user "chain action executed") ∧
    isTransformExc (Enact.applyTransform rtId "<i>x</i><b>y</b>" (.fn fnBoom, .dat (.pystr ""))) = false :=
  ⟨rfl, rfl⟩

/-- Claim C1 counterexample: at a concrete document and two requests whose
recorded original keys have equal length, the pairs recorded in request
order are listed first; reconcileSpec is exactly the fold of substring
replacement over those pairs sorted by descending key length with ties in
the given (request) order, yet the call returns a different string — the
tie order the code uses is the dict iteration order (here reversed), not
request order. -/
theorem reconcile_tie_order_not_request_order :
    Enact.buildReplaceDict rtRev "<i>x</i><b>y</b>" (zipPairs tlIB) =
      .ok [("<i>x</i>", "<b>y</b>"), ("<b>y</b>", "<b>Z</b>")] ∧
    Enact.string rtRev "<i>x</i><b>y</b>" tlIB none = .ok "<b>y</b><b>Z</b>" ∧
    reconcileSpec "<i>x</i><b>y</b>" [("<i>x</i>", "<b>y</b>"), ("<b>y</b>", "<b>Z</b>")] =
      "<b>Z</b><b>Z</b>" ∧
    ("<b>y</b><b>Z</b>" : String) ≠ "<b>Z</b><b>Z</b>" :=
  ⟨rfl, rfl, rfl, by decide⟩

/-- Claim C1 (amended): the reconciliation step folds plain substring
replacement over the serialized base text using exactly the recorded
pairs in an order sorted by descending length of the original key — the
substitution list is a permutation of the recorded pairs and is sorted
under lenGE — with ties among equal-length keys following the dict
iteration order (Runtime.ditems), which Python 2 leaves unspecified,
rather than request order. -/
theorem reconcile_is_sorted_fold {D : Type} (L : Runtime D) (s : String)
    (tl : List (TVal D)) (dt : Option String) (rd : List (String × String))
    (hs : s ≠ "") (hlen : ¬ tl.length % 2 = 1)
    (hrd : Enact.buildReplaceDict L (L.parse s) (zipPairs tl) = .ok rd) :
    Enact.string L s tl dt =
      .ok (reconcileSpec (L.renderDoc (L.parse s) dt) (L.ditems rd)) ∧
    List.Perm (sortByLenDesc (L.ditems rd)) rd ∧
    List.Sorted lenGE (sortByLenDesc (L.ditems rd)) := by
  refine ⟨?_, (List.perm_insertionSort lenGE (L.ditems rd)).trans (L.ditems_perm rd),
    List.sorted_insertionSort lenGE (L.ditems rd)⟩
  simp [Enact.string, hs, hlen, Enact.ensureHTML, hrd, reconcileSpec]

/-- Claim C1 witness: the amended statement at a concrete runtime. -/
theorem reconcile_is_sorted_fold_instance :
    Enact.string rtRev "<i>x</i><b>y</b>" tlIB none =
      .ok (reconcileSpec (rtRev.renderDoc (rtRev.parse "<i>x</i><b>y</b>") none)
        (rtRev.ditems [("<i>x</i>", "<b>y</b>"), ("<b>y</b>", "<b>Z</b>")])) ∧
    List.Perm (sortByLenDesc (rtRev.ditems [("<i>x</i>", "<b>y</b>"), ("<b>y</b>", "<b>Z</b>")]))
      [("<i>x</i>", "<b>y</b>"), ("<b>y</b>", "<b>Z</b>")] ∧
    List.Sorted lenGE (sortByLenDesc (rtRev.ditems [("<i>x</i>", "<b>y</b>"), ("<b>y</b>", "<b>Z</b>")])) :=
  reconcile_is_sorted_fold rtRev "<i>x</i><b>y</b>" tlIB none
    [("<i>x</i>", "<b>y</b>"), ("<b>y</b>", "<b>Z</b>")] (by decide) (by decide) rfl

/-- Claim C3 counterexample: the selectors i and b of tlIB match disjoint
elements of the document (selIB yields the i node and the b node, two
non-overlapping subtrees of the original document), yet swapping the two
requests changes the final output, because the transformed serialization
of the i request contains the original serialization of the b request as
a substring. -/
theorem swap_nonoverlapping_changes_output :
    Enact.string rtId "<i>x</i><b>y</b>" tlIB none = .ok "<b>Z</b><b>Z</b>" ∧
    Enact.string rtId "<i>x</i><b>y</b>" tlBI none = .ok "<b>y</b><b>Z</b>" ∧
    ("<b>Z</b><b>Z</b>" : String) ≠ "<b>y</b><b>Z</b>" :=
  ⟨rfl, rfl, by decide⟩

/-- Claim C3 (amended): every selector is evaluated against the original
document only — replace_dict is the dict accumulation of the per-request
pairs of mapPairs, where each pair is Enact.pairFor of the original parsed
document and that single request, independent of every other request and
of their order.  (Reordering requests therefore only reorders the recorded
pairs; as the counterexample shows, it can nonetheless change the final
output of non-overlapping requests through textual interaction of the
replacement strings.) -/
theorem pairs_from_original_document {D : Type} (L : Runtime D) (htmldoc : D)
    (tps : List (TVal D × TVal D)) :
    Enact.buildReplaceDict L htmldoc tps =
      Except.map (fun kvs => kvs.foldl (fun acc kv => dictInsert acc kv.1 kv.2) [])
        (mapPairs L htmldoc tps) :=
  foldlM_record_eq_mapPairs L htmldoc tps []

/-! Attribute-update lemmas for the action library. -/

theorem firstAttr_updateAttr_ne (a : List (String × String)) (j k : String)
    (v : Option String) (hjk : j ≠ k) :
    firstAttr (updateAttr a j v) k = firstAttr a k := by
  induction a with
  | nil => cases v <;> simp [updateAttr, firstAttr, hjk]
  | cons p a ih =>
    cases v with
    | some w =>
      by_cases h : p.1 = j
      · simp [updateAttr, h, firstAttr, hjk]
      · simp [updateAttr, h, firstAttr, ih]
    | none =>
      by_cases h : p.1 = j
      · simp [updateAttr, h, firstAttr, ih, hjk]
      · simp [updateAttr, h, firstAttr, ih]

theorem firstAttr_updateAttr_some (a : List (String × String)) (k w : String) :
    firstAttr (updateAttr a k (some w)) k = some w := by
  induction a with
  | nil => simp [updateAttr, firstAttr]
  | cons p a ih =>
    by_cases h : p.1 = k
    · simp [updateAttr, h, firstAttr]
    · simp [updateAttr, h, firstAttr, ih]

theorem firstAttr_updateAttr_none (a : List (String × String)) (k : String) :
    firstAttr (updateAttr a k none) k = none := by
  induction a with
  | nil => simp [updateAttr, firstAttr]
  | cons p a ih =>
    by_cases h : p.1 = k
    · simp [updateAttr, h, ih]
    · simp [updateAttr, h, firstAttr, ih]

theorem updateAttr_some_of_firstAttr (a : List (String × String)) (k w : String)
    (hf : firstAttr a k = some w) : updateAttr a k (some w) = a := by
  induction a with
  | nil => simp [firstAttr] at hf
  | cons p a ih =>
    by_cases h : p.1 = k
    · simp [firstAttr, h] at hf
      have hp : p = (k, w) := by
        obtain ⟨p1, p2⟩ := p
        simp at h hf
        simp [h, hf]
      simp [updateAttr, h, hp]
    · simp [firstAttr, h] at hf
      simp [updateAttr, h, ih hf]

theorem updateAttr_none_of_firstAttr (a : List (String × String)) (k : String)
    (hf : firstAttr a k = none) : updateAttr a k none = a := by
  induction a with
  | nil => rfl
  | cons p a ih =>
    by_cases h : p.1 = k
    · simp [firstAttr, h] at hf
    · simp [firstAttr, h] at hf
      simp [updateAttr, h, ih hf]

theorem firstAttr_foldUpd_notmem (k : String) :
    ∀ (d : List (String × Option String)) (a : List (String × String)),
    k ∉ d.map Prod.fst → firstAttr (foldUpd d a) k = firstAttr a k
  | [], a, _ => rfl
  | kv :: d2, a, hk => by
    have hne : kv.1 ≠ k := by
      intro he
      exact hk (by simp [he])
    have hk2 : k ∉ d2.map Prod.fst := by
      intro hm
      exact hk (by simp [hm])
    show firstAttr (foldUpd d2 (updateAttr a kv.1 kv.2)) k = firstAttr a k
    rw [firstAttr_foldUpd_notmem k d2 (updateAttr a kv.1 kv.2) hk2,
      firstAttr_updateAttr_ne a kv.1 k kv.2 hne]

theorem updateAttr_foldUpd_noop (d : List (String × Option String))
    (a : List (String × String)) (k : String) (v : Option String)
    (hk : k ∉ d.map Prod.fst) :
    updateAttr (foldUpd d (updateAttr a k v)) k v = foldUpd d (updateAttr a k v) := by
  cases v with
  | some w =>
    have hf : firstAttr (foldUpd d (updateAttr a k (some w))) k = some w := by
      rw [firstAttr_foldUpd_notmem k d (updateAttr a k (some w)) hk,
        firstAttr_updateAttr_some]
    exact updateAttr_some_of_firstAttr _ k w hf
  | none =>
    have hf : firstAttr (foldUpd d (updateAttr a k none)) k = none := by
      rw [firstAttr_foldUpd_notmem k d (updateAttr a k none) hk,
        firstAttr_updateAttr_none]
    exact updateAttr_none_of_firstAttr _ k hf

theorem foldUpd_idem :
    ∀ (d : List (String × Option String)) (a : List (String × String)),
    (d.map Prod.fst).Nodup → foldUpd d (foldUpd d a) = foldUpd d a
  | [], a, _ => rfl
  | kv :: d2, a, hnd => by
    rw [List.map_cons, List.nodup_cons] at hnd
    obtain ⟨hk, hnd2⟩ := hnd
    show foldUpd d2 (updateAttr (foldUpd d2 (updateAttr a kv.1 kv.2)) kv.1 kv.2) =
      foldUpd d2 (updateAttr a kv.1 kv.2)
    rw [updateAttr_foldUpd_noop d2 a kv.1 kv.2 hk]
    exact foldUpd_idem d2 (updateAttr a kv.1 kv.2) hnd2

theorem setAttrs_eq_map :
    ∀ (d : List (String × Option String)) (sel : List HNode),
    Actions.setAttrs sel d = sel.map (nodeUpd d)
  | [], sel => by
    show sel = sel.map (nodeUpd [])
    rw [show nodeUpd [] = fun n => n from funext fun n => by cases n <;> rfl, List.map_id']
  | kv :: d2, sel => by
    show Actions.setAttrs (trAttr kv.1 kv.2 sel) d2 = sel.map (nodeUpd (kv :: d2))
    rw [setAttrs_eq_map d2 (trAttr kv.1 kv.2 sel)]
    show (sel.map _).map (nodeUpd d2) = sel.map (nodeUpd (kv :: d2))
    rw [List.map_map]
    apply List.map_congr_left
    intro n _
    cases n <;> rfl

theorem content_idem (sel : List HNode) (c : CArg) :
    Actions.content (Actions.content sel c) c = Actions.content sel c := by
  show (sel.map _).map _ = sel.map _
  rw [List.map_map]
  apply List.map_congr_left
  intro n _
  cases n <;> rfl

/-- Claim C7: the actions content, htmlContent and setAttrs are
idempotent — reapplied with the same argument to their own output, each
yields a fixed point (the attribute dict has unique keys, as every Python
dict does). -/
theorem actions_idempotent (parse : String → List HNode) (sel : List HNode)
    (s : String) (c : CArg) (d : List (String × Option String))
    (hd : (d.map Prod.fst).Nodup) :
    Actions.content (Actions.content sel (.cstr s)) (.cstr s) = Actions.content sel (.cstr s) ∧
    Actions.htmlContent parse (Actions.htmlContent parse sel c) c =
      Actions.htmlContent parse sel c ∧
    Actions.setAttrs (Actions.setAttrs sel d) d = Actions.setAttrs sel d := by
  refine ⟨content_idem sel (.cstr s), content_idem sel (ensureHNodes parse c), ?_⟩
  rw [setAttrs_eq_map, setAttrs_eq_map, List.map_map]
  apply List.map_congr_left
  intro n _
  cases n with
  | text s2 => rfl
  | elem t a ch =>
    show HNode.elem t (foldUpd d (foldUpd d a)) ch = HNode.elem t (foldUpd d a) ch
    rw [foldUpd_idem d a hd]

/-- Claim C7 witness: idempotence at a concrete selection, content string
and attribute dict. -/
theorem actions_idempotent_instance :
    Actions.content (Actions.content [HNode.elem "div" [("id", "x")] [HNode.text "Name"]] (.cstr "Hi"))
        (.cstr "Hi") =
      Actions.content [HNode.elem "div" [("id", "x")] [HNode.text "Name"]] (.cstr "Hi") ∧
    Actions.htmlContent (fun m => [HNode.text m])
        (Actions.htmlContent (fun m => [HNode.text m])
          [HNode.elem "div" [("id", "x")] [HNode.text "Name"]] (.cstr "<h1>T</h1>"))
        (.cstr "<h1>T</h1>") =
      Actions.htmlContent (fun m => [HNode.text m])
        [HNode.elem "div" [("id", "x")] [HNode.text "Name"]] (.cstr "<h1>T</h1>") ∧
    Actions.setAttrs (Actions.setAttrs [HNode.elem "div" [("id", "x")] [HNode.text "Name"]]
        [("id", some "y"), ("class", some "a")]) [("id", some "y"), ("class", some "a")] =
      Actions.setAttrs [HNode.elem "div" [("id", "x")] [HNode.text "Name"]]
        [("id", some "y"), ("class", some "a")] :=
  actions_idempotent (fun m => [HNode.text m]) [HNode.elem "div" [("id", "x")] [HNode.text "Name"]]
    "Hi" (.cstr "<h1>T</h1>") [("id", some "y"), ("class", some "a")] (by decide)

theorem updateAttr_none_filter (a : List (String × String)) (k : String) :
    updateAttr a k none = a.filter (fun p => p.1 ≠ k) := by
  induction a with
  | nil => rfl
  | cons p a ih => by_cases h : p.1 = k <;> simp [updateAttr, h, ih]

theorem foldUpd_all_none :
    ∀ (d : List (String × Option String)) (a : List (String × String)),
    (∀ kv ∈ d, kv.2 = (none : Option String)) →
    foldUpd d a = a.filter (fun p => ¬ p.1 ∈ d.map Prod.fst)
  | [], a, _ => by simp [foldUpd]
  | kv :: d2, a, hv => by
    have h0 : kv.2 = none := hv kv (by simp)
    have hv2 : ∀ kv2 ∈ d2, kv2.2 = (none : Option String) :=
      fun kv2 hm => hv kv2 (by simp [hm])
    show foldUpd d2 (updateAttr a kv.1 kv.2) = _
    rw [h0, foldUpd_all_none d2 (updateAttr a kv.1 none) hv2, updateAttr_none_filter,
      List.filter_filter]
    apply List.filter_congr
    intro p _
    by_cases hpk : p.1 = kv.1 <;> simp [hpk, List.mem_cons, not_or, Bool.and_comm]

theorem mem_keys_dictInsert {α : Type} (d : List (String × α)) (k : String) (v : α)
    (k2 : String) :
    k2 ∈ (dictInsert d k v).map Prod.fst ↔ k2 ∈ d.map Prod.fst ∨ k2 = k := by
  unfold dictInsert
  by_cases h : d.any (fun p => p.1 = k) = true
  · have hkin : k ∈ d.map Prod.fst := by
      obtain ⟨p, hp, he⟩ := List.any_eq_true.mp h
      exact List.mem_map.mpr ⟨p, hp, of_decide_eq_true he⟩
    have hmapkeys : (d.map (fun p => if p.1 = k then (k, v) else p)).map Prod.fst =
        d.map Prod.fst := by
      rw [List.map_map]
      apply List.map_congr_left
      intro p _
      by_cases hp : p.1 = k <;> simp [hp]
    rw [if_pos h, hmapkeys]
    constructor
    · exact Or.inl
    · rintro (hm | rfl)
      · exact hm
      · exact hkin
  · rw [if_neg h, List.map_append]
    simp [List.mem_append]

theorem values_none_dictInsert (d : List (String × Option String)) (k : String)
    (hd : ∀ kv ∈ d, kv.2 = (none : Option String)) :
    ∀ kv ∈ dictInsert d k (none : Option String), kv.2 = none := by
  intro kv hm
  unfold dictInsert at hm
  by_cases h : d.any (fun p => p.1 = k) = true
  · rw [if_pos h] at hm
    obtain ⟨p, hp, he⟩ := List.mem_map.mp hm
    by_cases hpk : p.1 = k
    · rw [if_pos hpk] at he
      rw [← he]
    · rw [if_neg hpk] at he
      rw [← he]
      exact hd p hp
  · rw [if_neg h] at hm
    rcases List.mem_append.mp hm with hm2 | hm2
    · exact hd kv hm2
    · rw [List.mem_singleton.mp hm2]

theorem pyDict_keys_mem :
    ∀ (l acc : List (String × Option String)) (k2 : String),
    k2 ∈ (l.foldl (fun d p => dictInsert d p.1 p.2) acc).map Prod.fst ↔
      k2 ∈ acc.map Prod.fst ∨ k2 ∈ l.map Prod.fst
  | [], acc, k2 => by simp
  | p :: l, acc, k2 => by
    show k2 ∈ (l.foldl _ (dictInsert acc p.1 p.2)).map Prod.fst ↔ _
    rw [pyDict_keys_mem l (dictInsert acc p.1 p.2) k2, mem_keys_dictInsert]
    simp only [List.map_cons, List.mem_cons]
    tauto

theorem pyDict_values_none :
    ∀ (l acc : List (String × Option String)),
    (∀ kv ∈ l, kv.2 = (none : Option String)) →
    (∀ kv ∈ acc, kv.2 = (none : Option String)) →
    ∀ kv ∈ l.foldl (fun d p => dictInsert d p.1 p.2) acc, kv.2 = (none : Option String)
  | [], _, _, hacc => hacc
  | p :: l, acc, hl, hacc => by
    have hp : p.2 = none := hl p (by simp)
    show ∀ kv ∈ l.foldl _ (dictInsert acc p.1 p.2), kv.2 = none
    refine pyDict_values_none l (dictInsert acc p.1 p.2)
      (fun kv hm => hl kv (by simp [hm])) ?_
    rw [hp]
    exact values_none_dictInsert acc p.1 hacc

/-- Claim C8: for every selection and attribute-name argument (single name
or list of names), Actions.removeAttrs equals setAttrs applied with the
mapping that sends each named attribute to a null value (the intervening
Python dict construction changes nothing). -/
theorem removeAttrs_is_setAttrs_null (selection : List HNode) (arg : StrOrList) :
    Actions.removeAttrs selection arg = removeAttrsSpec selection (namesOf arg) := by
  unfold Actions.removeAttrs removeAttrsSpec
  rw [setAttrs_eq_map, setAttrs_eq_map]
  apply List.map_congr_left
  intro n _
  cases n with
  | text s => rfl
  | elem t a ch =>
    show HNode.elem t (foldUpd (pyDictOfPairs ((namesOf arg).map (fun n2 => (n2, (none : Option String))))) a) ch =
      HNode.elem t (foldUpd ((namesOf arg).map (fun n2 => (n2, (none : Option String)))) a) ch
    have hnames : ∀ kv ∈ (namesOf arg).map (fun n2 => (n2, (none : Option String))),
        kv.2 = (none : Option String) := by
      intro kv hm
      obtain ⟨n2, _, he⟩ := List.mem_map.mp hm
      rw [← he]
    have hdict : ∀ kv ∈ pyDictOfPairs ((namesOf arg).map (fun n2 => (n2, (none : Option String)))),
        kv.2 = (none : Option String) :=
      pyDict_values_none _ [] hnames (fun kv hm => by simp at hm)
    rw [foldUpd_all_none _ a hdict, foldUpd_all_none _ a hnames]
    have hkeys : ∀ k2 : String,
        k2 ∈ (pyDictOfPairs ((namesOf arg).map (fun n2 => (n2, (none : Option String))))).map Prod.fst ↔
        k2 ∈ ((namesOf arg).map (fun n2 => (n2, (none : Option String)))).map Prod.fst := by
      intro k2
      unfold pyDictOfPairs
      rw [pyDict_keys_mem]
      simp
    congr 1
    apply List.filter_congr
    intro p _
    simp [hkeys p.1]
